import Mathlib

/-!
Verification of the Tempesta FW access-log shipper (`src/utils/tfw_logger.cc`).

The development shallowly embeds the shipper's core: the columnar block built
by `make_block`, the binary event decoder `read_access_log_event`, the span
`callback` that walks frames and commits, and the supervisor logic of `main`.
Byte memory is a function `Nat → Nat` (byte value at offset), so reads beyond
the declared span length are observable: the decoder records every memory
access it performs in a read trace.

The on-wire header type `TfwBinLogEvent` and the field-length table live in
`fw/access_log.h`, which is not part of the sources at hand; those pieces are
modelled from the specification (§3): a frame header is `type` (1 byte), the
`fields_mask` bitmap (16-bit little-endian, bits 0..9 used), and `timestamp`
(64-bit little-endian), 11 bytes in total.  Likewise the clickhouse column
builders are modelled from the specification as named typed value lists whose
zero values are 0 for integers, the empty string for strings and 16 zero
bytes for IPv6.
-/

namespace Tfw

/-- Little-endian 16-bit value of two bytes. -/
def le16 (b0 b1 : Nat) : Nat := b0 + 256 * b1

/-- Little-endian 32-bit value of four bytes. -/
def le32 (b0 b1 b2 b3 : Nat) : Nat := b0 + 256 * (b1 + 256 * (b2 + 256 * b3))

/-- Little-endian 64-bit value of eight bytes. -/
def le64 (b0 b1 b2 b3 b4 b5 b6 b7 : Nat) : Nat :=
  b0 + 256 * (b1 + 256 * (b2 + 256 * (b3 + 256 * (b4 + 256 *
    (b5 + 256 * (b6 + 256 * b7))))))

/-- Byte memory built from a concrete byte list; offsets beyond the list read
as 0 (modelling whatever adjacent memory holds). -/
def memOf (l : List Nat) : Nat → Nat := fun i => l.getD i 0

/-- The `n` bytes starting at offset `off`. -/
def bytesAt (mem : Nat → Nat) (off n : Nat) : List Nat :=
  (List.range n).map (fun j => mem (off + j))

/-- Column type codes of the clickhouse client (`Type::Code` as used by
`tfw_fields` and `make_block`). -/
inductive TypeCode where
  | uint8
  | uint16
  | uint32
  | uint64
  | ipv6
  | string

/-- A value appended to a column: an unsigned integer, a string (as bytes),
or a 16-byte IPv6 address. -/
inductive CHValue where
  | uint (n : Nat)
  | str (bytes : List Nat)
  | ip (bytes : List Nat)

/-- Modelled from the spec: a clickhouse column builder is a named, typed,
growing list of values (the client library itself is outside the sources). -/
structure Column where
  name : String
  code : TypeCode
  data : List CHValue

/-- The row count of every column of a block, in column order. -/
def colLengths (block : List Column) : List Nat := block.map (fun c => c.data.length)

/-- Append a value to the column at index `ind` of a block, as
`(*block)[ind]->Append(v)` does. -/
def appendAt : List Column → Nat → CHValue → List Column
  | [], _, _ => []
  | c :: rest, 0, v => { c with data := c.data ++ [v] } :: rest
  | c :: rest, n + 1, v => c :: appendAt rest n v

/-- Field ordinals of `TfwBinLogFields` (modelled from the spec's §3 table;
the enum lives in the absent `fw/access_log.h`). -/
def TFW_MMAP_LOG_ADDR : Nat := 0
def TFW_MMAP_LOG_METHOD : Nat := 1
def TFW_MMAP_LOG_VERSION : Nat := 2
def TFW_MMAP_LOG_STATUS : Nat := 3
def TFW_MMAP_LOG_RESP_CONT_LEN : Nat := 4
def TFW_MMAP_LOG_RESP_TIME : Nat := 5
def TFW_MMAP_LOG_VHOST : Nat := 6
def TFW_MMAP_LOG_URI : Nat := 7
def TFW_MMAP_LOG_REFERER : Nat := 8
def TFW_MMAP_LOG_USER_AGENT : Nat := 9
def TFW_MMAP_LOG_MAX : Nat := 10

/-- The `tfw_fields` table of `tfw_logger.cc`: name and column type for each
field ordinal, in ordinal order. -/
def tfw_fields : List (String × TypeCode) :=
  [("address", .ipv6),
   ("method", .uint8),
   ("version", .uint8),
   ("status", .uint16),
   ("response_content_length", .uint32),
   ("response_time", .uint32),
   ("vhost", .string),
   ("uri", .string),
   ("referer", .string),
   ("user_agent", .string)]

/-- The block built by `make_block`: a fresh `timestamp` UInt64 column
followed by one fresh column per entry of `tfw_fields`. -/
def make_block : List Column :=
  ⟨"timestamp", .uint64, []⟩ :: tfw_fields.map (fun f => ⟨f.1, f.2, []⟩)

/-- Modelled from the spec: the fixed header size, `sizeof(TfwBinLogEvent)`
(`fw/access_log.h` is absent).  The header is `type` (1 byte) at offset 0,
`fields_mask` (16-bit LE) at offsets 1..2, `timestamp` (64-bit LE) at
offsets 3..10. -/
def headerSize : Nat := 11

/-- The `type` byte of the frame header at offset `off`. -/
def eventType (mem : Nat → Nat) (off : Nat) : Nat := mem off

/-- The `fields_mask` bitmap of the frame header starting at offset 0. -/
def eventMask (mem : Nat → Nat) : Nat := le16 (mem 1) (mem 2)

/-- The 64-bit `timestamp` of the frame header starting at offset 0. -/
def eventTimestamp (mem : Nat → Nat) : Nat :=
  le64 (mem 3) (mem 4) (mem 5) (mem 6) (mem 7) (mem 8) (mem 9) (mem 10)

/-- `TFW_MMAP_LOG_FIELD_IS_SET(event, i)`: bit `i` of the fields mask. -/
def fieldIsSet (mask i : Nat) : Bool := mask.testBit i

/-- Modelled from the spec: `tfw_mmap_log_field_len` (absent
`fw/access_log.h`) — the fixed encoded length of integer fields, per §3:
16, 1, 1, 2, 4, 4 bytes for ordinals 0..5.  For string ordinals the decoder
overwrites `len` with the length prefix before any use, so the value
returned here for 6..9 is never consulted. -/
def tfw_mmap_log_field_len (i : Nat) : Nat :=
  if i = 0 then 16
  else if i = 1 then 1
  else if i = 2 then 1
  else if i = 3 then 2
  else if i = 4 then 4
  else if i = 5 then 4
  else 0

/-- The value read for a present integer field of ordinal `i` at offset
`off`: the raw 16 address bytes for ordinal 0, a 1/2/4-byte little-endian
integer for ordinals 1..5 (the `*(val_type *)p` dereference). -/
def intValue (mem : Nat → Nat) (off i : Nat) : CHValue :=
  if i = 0 then .ip (bytesAt mem off 16)
  else if i = 3 then .uint (le16 (mem off) (mem (off + 1)))
  else if i = 4 ∨ i = 5 then
    .uint (le32 (mem off) (mem (off + 1)) (mem (off + 2)) (mem (off + 3)))
  else .uint (mem off)

/-- Modelled from the spec: the zero value appended for an absent field
(`Append(0)` on the column): 0 for integers, 16 zero bytes for IPv6. -/
def zeroValue (i : Nat) : CHValue :=
  if i = 0 then .ip (List.replicate 16 0) else .uint 0

/-- Outcome of one field-loop iteration (or of the whole loop) of
`read_access_log_event`: `fail` is the `return -1` paths (carrying the block
and read trace as left at that point), `next` carries the advanced pointer
offset, remaining size, block and read trace. -/
inductive FieldStep where
  | fail (block : List Column) (reads : List (Nat × Nat))
  | next (off : Nat) (size : Int) (block : List Column) (reads : List (Nat × Nat))

/-- One iteration of the field loop of `read_access_log_event` for ordinal
`i` at pointer offset `off` with `size` bytes of the span remaining.  The
six `INT_CASE` macro expansions (ordinals 0..5) are collapsed into the first
branch: each checks `len > size` BEFORE testing the presence bit, appends
the decoded value (reading `len` bytes) when present and the zero value
(reading nothing) when absent.  String ordinals 6..9 share the second
branch: an absent string appends `""` and breaks without advancing; a
present string reads the 2-byte length prefix BEFORE the `len + 2 > size`
bounds check, then appends the `len` prefix-counted bytes.  The pointer and
size advance after the switch only when the presence bit is set, by the
effective `len` (prefix + 2 for strings).  Any other ordinal is the
`default:` case, `return -1`. -/
def decodeField (mem : Nat → Nat) (mask i off : Nat) (size : Int)
    (block : List Column) (reads : List (Nat × Nat)) : FieldStep :=
  if i ≤ 5 then
    let len := tfw_mmap_log_field_len i
    if (len : Int) > size then .fail block reads
    else if fieldIsSet mask i then
      .next (off + len) (size - (len : Int))
        (appendAt block (i + 1) (intValue mem off i)) (reads ++ [(off, len)])
    else
      .next off size (appendAt block (i + 1) (zeroValue i)) reads
  else if i ≤ 9 then
    if fieldIsSet mask i then
      let len := le16 (mem off) (mem (off + 1))
      if (len : Int) + 2 > size then .fail block (reads ++ [(off, 2)])
      else
        .next (off + (len + 2)) (size - ((len : Int) + 2))
          (appendAt block (i + 1) (.str (bytesAt mem (off + 2) len)))
          (reads ++ [(off, 2), (off + 2, len)])
    else
      .next off size (appendAt block (i + 1) (.str [])) reads
  else .fail block reads

/-- The field loop of `read_access_log_event` over a list of ordinals:
threads offset, remaining size, block and read trace through
`decodeField`, stopping at the first failure. -/
def decodeFields (mem : Nat → Nat) (mask : Nat) :
    List Nat → Nat → Int → List Column → List (Nat × Nat) → FieldStep
  | [], off, size, block, reads => .next off size block reads
  | i :: rest, off, size, block, reads =>
    match decodeField mem mask i off size block reads with
    | .fail b r => .fail b r
    | .next off1 size1 b r => decodeFields mem mask rest off1 size1 b r

/-- The ordinals `TFW_MMAP_LOG_ADDR .. TFW_MMAP_LOG_MAX - 1` walked by the
field loop. -/
def ords : List Nat := [0, 1, 2, 3, 4, 5, 6, 7, 8, 9]

/-- Result of `read_access_log_event`: `ok = false` is the `return -1`
paths; on success `consumed` is `p - data`.  `reads` records every
`(offset, byte count)` memory access the decoder performed. -/
structure EvResult where
  ok : Bool
  consumed : Nat
  block : List Column
  reads : List (Nat × Nat)

/-- `read_access_log_event(data, size, clickhouse)` of `tfw_logger.cc`:
parse the header, append the timestamp to column 0, then run the field
loop over all ten ordinals.  The header parse reads bytes 0..10. -/
def read_access_log_event (mem : Nat → Nat) (size : Int) (block : List Column) :
    EvResult :=
  let block1 := appendAt block 0 (.uint (eventTimestamp mem))
  match decodeFields mem (eventMask mem) ords headerSize (size - (headerSize : Int))
      block1 [(0, headerSize)] with
  | .fail b r => ⟨false, 0, b, r⟩
  | .next off _ b r => ⟨true, off, b, r⟩

/-- Whether every recorded read `(off, n)` stays inside a span of `size`
bytes. -/
def readsWithin (reads : List (Nat × Nat)) (size : Nat) : Bool :=
  reads.all (fun p => p.1 + p.2 ≤ size)

/-- The encoded length of a present field of ordinal `i` whose encoding
starts at offset `off`: the fixed length for integer ordinals 0..5, and
2-byte prefix plus the prefix value for string ordinals. -/
def fieldEncLen (mem : Nat → Nat) (off i : Nat) : Nat :=
  if i ≤ 5 then tfw_mmap_log_field_len i
  else 2 + le16 (mem off) (mem (off + 1))

/-- Total encoded body length of the mask-present fields among `l`, walking
ordinals in order from offset `off`; mask-absent fields contribute zero
bytes and do not move the offset. -/
def presentLen (mem : Nat → Nat) (mask : Nat) : List Nat → Nat → Nat
  | [], _ => 0
  | i :: rest, off =>
    if fieldIsSet mask i then
      fieldEncLen mem off i + presentLen mem mask rest (off + fieldEncLen mem off i)
    else presentLen mem mask rest off

/-- Modelled from the spec: the frame `type` byte values (the enum is in the
absent `fw/access_log.h`); §8 scenarios fix ACCESS = 1, DROPPED = 2. -/
def TFW_MMAP_LOG_TYPE_ACCESS : Nat := 1
def TFW_MMAP_LOG_TYPE_DROPPED : Nat := 2

/-- Why the span `callback` returned before reaching `commit()`. -/
inductive StopReason where
  | fuelOut
  | shortFrame
  | decodeFail
  | shortDropped
  | dropped
  | unknown

/-- Result of the span `callback`: the dropped-event counts printed, whether
`clickhouse->commit()` was reached, the block state, the remaining byte
count, and the early-return reason (`none` exactly on the commit path). -/
structure CbResult where
  emitted : List Nat
  committed : Bool
  block : List Column
  remaining : Int
  stop : Option StopReason

/-- The `do { ... } while (size > 0); clickhouse->commit();` loop of
`callback` in `tfw_logger.cc`, at pointer offset `off` into the span with
`size` bytes remaining.  Each iteration: fewer than a header's worth of
bytes returns without commit; an ACCESS frame is decoded (a failure returns
without commit, keeping the partially appended block); a DROPPED frame
requires 8 more bytes, prints the little-endian count and returns without
commit; an unknown type returns without commit.  Only when ACCESS decodes
drain `size` to 0 does control leave the loop and reach `commit()`.  `fuel`
bounds the iteration count (each ACCESS iteration consumes at least one
byte, so `fuel = size` always suffices). -/
def callbackLoop (mem : Nat → Nat) :
    Nat → Nat → Int → List Column → List Nat → CbResult
  | 0, _, size, block, em => ⟨em, false, block, size, some .fuelOut⟩
  | fuel + 1, off, size, block, em =>
    if size < (headerSize : Int) then ⟨em, false, block, size, some .shortFrame⟩
    else if eventType mem off = TFW_MMAP_LOG_TYPE_ACCESS then
      let r := read_access_log_event (fun j => mem (off + j)) size block
      if r.ok then
        if size - (r.consumed : Int) > 0 then
          callbackLoop mem fuel (off + r.consumed) (size - (r.consumed : Int)) r.block em
        else ⟨em, true, r.block, size - (r.consumed : Int), none⟩
      else ⟨em, false, r.block, size, some .decodeFail⟩
    else if eventType mem off = TFW_MMAP_LOG_TYPE_DROPPED then
      if (8 : Int) > size - (headerSize : Int) then
        ⟨em, false, block, size - (headerSize : Int), some .shortDropped⟩
      else
        ⟨em ++ [le64 (mem (off + 11)) (mem (off + 12)) (mem (off + 13)) (mem (off + 14))
                  (mem (off + 15)) (mem (off + 16)) (mem (off + 17)) (mem (off + 18))],
         false, block, size - (headerSize : Int) - 8, some .dropped⟩
    else ⟨em, false, block, size, some .unknown⟩

/-- The `callback(data, size, private_data)` entry: starts at the span head
with an empty emission list. -/
def callback (mem : Nat → Nat) (size : Int) (block : List Column) (fuel : Nat) :
    CbResult :=
  callbackLoop mem fuel 0 size block []

/-- The `errno` values used by `main`. -/
def ENOENT : Nat := 2
def EINVAL : Nat := 22

/-- Outcome of one `open(FILE_PATH, O_RDWR)` call, as the environment
resolves the `k`-th attempt. -/
inductive OpenResult where
  | ok (fd : Nat)
  | err (errno : Nat)

/-- The environment `main` runs against: the result of each successive
`open` attempt.  Worker threads always eventually exit (the `join` calls
return), matching the clean-shutdown scenario. -/
structure Env where
  openResult : Nat → OpenResult

/-- Externally visible actions of `main`, in program order. -/
inductive Action where
  | printUsage
  | openAttempt (k : Nat)
  | sleepSec (s : Nat)
  | spawnWorker (cpu : Nat)
  | joinWorker (cpu : Nat)
  | closeDevice

/-- How a run of `main` ended: `exited c` is a `return c` statement,
`fatal e` is the uncaught `runtime_error` thrown on a non-ENOENT open
failure, `running` means the fuel bound was reached with the program still
looping. -/
inductive Outcome where
  | exited (code : Int)
  | fatal (errno : Nat)
  | running

/-- Outcome of the inner device-open loop: a file descriptor together with
the index of the next open attempt, a fatal errno, or fuel exhaustion. -/
inductive OpenLoopOut where
  | gotFd (fd : Nat) (next : Nat)
  | fatal (errno : Nat)
  | spin

/-- The inner loop of `main`:
`while ((fd = open(FILE_PATH, O_RDWR)) == -1) { if (errno != ENOENT) throw; sleep(1); }`
starting at attempt index `k`.  Every ENOENT failure sleeps one second and
retries; any other errno throws without retrying. -/
def openLoop (env : Env) : Nat → Nat → List Action × OpenLoopOut
  | 0, _ => ([], .spin)
  | fuel + 1, k =>
    match env.openResult k with
    | .ok fd => ([.openAttempt k], .gotFd fd (k + 1))
    | .err e =>
      if e = ENOENT then
        let r := openLoop env fuel (k + 1)
        (.openAttempt k :: .sleepSec 1 :: r.1, r.2)
      else ([.openAttempt k], .fatal e)

/-- The per-session worker actions of `main`: spawn one thread per online
CPU, then join them all. -/
def workerActions (cpu_cnt : Nat) : List Action :=
  (List.range cpu_cnt).map .spawnWorker ++ (List.range cpu_cnt).map .joinWorker

/-- The outer `while (1)` loop of `main`: open the device (retrying on
ENOENT), spawn and join one worker per CPU, close the device, and loop
again.  The loop has no `break`, so it ends only by the uncaught throw of
the open loop (or by the fuel bound); it never falls through to the
`return 0;` that follows it. -/
def superLoop (env : Env) (cpu_cnt : Nat) : Nat → Nat → List Action × Outcome
  | 0, _ => ([], .running)
  | fuel + 1, k =>
    let o := openLoop env (fuel + 1) k
    match o.2 with
    | .fatal e => (o.1, .fatal e)
    | .spin => (o.1, .running)
    | .gotFd _ k2 =>
      let rest := superLoop env cpu_cnt fuel k2
      (o.1 ++ workerActions cpu_cnt ++ [.closeDevice] ++ rest.1, rest.2)

/-- `main(argc, argv)` of `tfw_logger.cc`: with an argument count other
than 2 it prints the usage text and returns `-EINVAL`; otherwise it enters
the `while (1)` supervisor loop, whose only exit is the fatal throw — the
final `return 0;` after the loop is unreachable. -/
def mainModel (argc cpu_cnt : Nat) (env : Env) (fuel : Nat) :
    List Action × Outcome :=
  if argc ≠ 2 then ([.printUsage], .exited (-(EINVAL : Int)))
  else superLoop env cpu_cnt fuel 0

/-- The trace of `n` failed ENOENT open attempts starting at attempt `k`,
each followed by a one-second sleep. -/
def retryBlock : Nat → Nat → List Action
  | _, 0 => []
  | k, n + 1 => .openAttempt k :: .sleepSec 1 :: retryBlock (k + 1) n

/-! ## Concrete scenario inputs -/

/-- A span holding exactly one header (type ACCESS, empty mask,
timestamp 1) and no body bytes. -/
def headerOnlyBytes : List Nat := [1, 0, 0, 1, 0, 0, 0, 0, 0, 0, 0]

/-- The spec's minimal-ACCESS scenario: header (type ACCESS,
mask 0b0000000001, timestamp 1) followed by 16 bytes of 0xFE. -/
def minimalAccessBytes : List Nat :=
  [1, 1, 0, 1, 0, 0, 0, 0, 0, 0, 0] ++ List.replicate 16 0xFE

/-- A 40-byte span: header with mask bits 0..6 set, the six integer fields
(28 bytes), and a single further byte — the vhost field is present but its
2-byte length prefix starts at the last byte of the span. -/
def truncatedVhostBytes : List Nat :=
  [1, 127, 0, 1, 0, 0, 0, 0, 0, 0, 0] ++ List.replicate 16 0xAA
    ++ [7, 2, 200, 0, 1, 0, 0, 0, 2, 0, 0, 0, 5]

/-- A full ACCESS frame: all ten mask bits set, integer fields, and the
strings "h", "/", "" and "x" — 50 bytes in total. -/
def fullAccessBytes : List Nat :=
  [1, 0xFF, 0x03, 1, 0, 0, 0, 0, 0, 0, 0] ++ List.replicate 16 0xAA
    ++ [7] ++ [2] ++ [200, 0] ++ [5, 0, 0, 0] ++ [6, 0, 0, 0]
    ++ [1, 0, 104] ++ [1, 0, 47] ++ [0, 0] ++ [1, 0, 120]

/-- The spec's DROPPED scenario: a DROPPED header followed by the 8 bytes
`0x2A 00 00 00 00 00 00 00`. -/
def droppedBytes : List Nat :=
  [2, 0, 0, 1, 0, 0, 0, 0, 0, 0, 0] ++ [0x2A, 0, 0, 0, 0, 0, 0, 0]

/-- A span holding one full ACCESS frame followed by a frame with the
unknown type byte 99. -/
def accessThenUnknownBytes : List Nat :=
  fullAccessBytes ++ [99, 0, 0, 0, 0, 0, 0, 0, 0, 0, 0]

/-- An environment whose every open attempt succeeds immediately. -/
def constEnv : Env := ⟨fun _ => .ok 3⟩

/-- An environment whose first open attempt fails with ENOENT and whose
second fails with EACCES (13). -/
def enoentThenEaccesEnv : Env :=
  ⟨fun k => if k = 0 then .err ENOENT else .err 13⟩

/-! ## Lemmas about the field loop -/

/-- When a field-loop iteration succeeds, the pointer and remaining size
advance by the field's encoded length when the field is present, and not at
all when it is absent; a nonnegative size budget stays nonnegative. -/
theorem decodeField_next_eq (mem : Nat → Nat) (mask i off : Nat) (size : Int)
    (block : List Column) (reads : List (Nat × Nat))
    {off1 : Nat} {size1 : Int} {b : List Column} {r : List (Nat × Nat)}
    (h : decodeField mem mask i off size block reads = .next off1 size1 b r) :
    off1 = off + (if fieldIsSet mask i then fieldEncLen mem off i else 0) ∧
    size1 = size - ((if fieldIsSet mask i then fieldEncLen mem off i else 0 : Nat) : Int) ∧
    (0 ≤ size → 0 ≤ size1) := by
  simp only [decodeField] at h
  split_ifs at h with hi5 hlen hset hi9 hsetS hplen
  · injection h with h1 h2 h3 h4
    subst h1; subst h2
    refine ⟨?_, ?_, fun _ => by omega⟩
    · simp [hset, fieldEncLen, hi5]
    · simp [hset, fieldEncLen, hi5]
  · injection h with h1 h2 h3 h4
    subst h1; subst h2
    exact ⟨by simp [hset], by simp [hset], fun hs => hs⟩
  · injection h with h1 h2 h3 h4
    subst h1; subst h2
    refine ⟨?_, ?_, fun _ => by omega⟩
    · simp [hsetS, fieldEncLen, hi5]
      omega
    · simp [hsetS, fieldEncLen, hi5]
      omega
  · injection h with h1 h2 h3 h4
    subst h1; subst h2
    exact ⟨by simp [hsetS], by simp [hsetS], fun hs => hs⟩

/-- When the whole field loop succeeds, the pointer has advanced from `off`
by exactly the total encoded length of the mask-present fields, the size
budget has shrunk by the same amount, and a nonnegative budget stays
nonnegative. -/
theorem decodeFields_next_eq (mem : Nat → Nat) (mask : Nat) (l : List Nat) :
    ∀ (off : Nat) (size : Int) (block : List Column) (reads : List (Nat × Nat))
      {off1 : Nat} {size1 : Int} {b : List Column} {r : List (Nat × Nat)},
      decodeFields mem mask l off size block reads = .next off1 size1 b r →
      off1 = off + presentLen mem mask l off ∧
      size1 = size - (presentLen mem mask l off : Int) ∧
      (0 ≤ size → 0 ≤ size1) := by
  induction l with
  | nil =>
    intro off size block reads off1 size1 b r h
    simp only [decodeFields] at h
    injection h with h1 h2 h3 h4
    subst h1; subst h2
    exact ⟨by simp [presentLen], by simp [presentLen], fun hs => hs⟩
  | cons i rest ih =>
    intro off size block reads off1 size1 b r h
    simp only [decodeFields] at h
    cases hd : decodeField mem mask i off size block reads with
    | fail b0 r0 => rw [hd] at h; exact absurd h (by simp)
    | next o1 s1 b1 r1 =>
      rw [hd] at h
      obtain ⟨ho, hs, hnn⟩ := decodeField_next_eq mem mask i off size block reads hd
      obtain ⟨ho1, hs1, hnn1⟩ := ih o1 s1 b1 r1 h
      by_cases hset : fieldIsSet mask i
      · simp only [hset, if_true] at ho hs
        subst ho; subst hs
        refine ⟨?_, ?_, fun h0 => hnn1 (hnn h0)⟩
        · rw [ho1]; simp [presentLen, hset]; omega
        · rw [hs1]; simp [presentLen, hset]; omega
      · simp only [hset, if_false] at ho hs
        subst ho; subst hs
        refine ⟨?_, ?_, fun h0 => hnn1 (hnn h0)⟩
        · rw [ho1]; simp [presentLen, hset]
        · rw [hs1]; simp [presentLen, hset]

/-- When `read_access_log_event` succeeds, the byte count it returns is the
header size plus the total encoded length of the mask-present fields. -/
theorem read_ok_consumed (mem : Nat → Nat) (size : Int) (block : List Column)
    (h : (read_access_log_event mem size block).ok = true) :
    (read_access_log_event mem size block).consumed
      = headerSize + presentLen mem (eventMask mem) ords headerSize := by
  simp only [read_access_log_event] at h ⊢
  cases hd : decodeFields mem (eventMask mem) ords headerSize (size - (headerSize : Int))
      (appendAt block 0 (.uint (eventTimestamp mem))) [(0, headerSize)] with
  | fail b r => rw [hd] at h; simp at h
  | next off s b r =>
    obtain ⟨ho, _, _⟩ := decodeFields_next_eq mem (eventMask mem) ords headerSize
      (size - (headerSize : Int)) _ _ hd
    simpa using ho

/-- When `read_access_log_event` succeeds on a span of at least a header's
worth of bytes, the consumed byte count is at least the header size and at
most the span size. -/
theorem read_ok_consumed_le (mem : Nat → Nat) (size : Int) (block : List Column)
    (h11 : (headerSize : Int) ≤ size)
    (h : (read_access_log_event mem size block).ok = true) :
    (headerSize : Int) ≤ ((read_access_log_event mem size block).consumed : Int) ∧
    ((read_access_log_event mem size block).consumed : Int) ≤ size := by
  simp only [read_access_log_event] at h ⊢
  cases hd : decodeFields mem (eventMask mem) ords headerSize (size - (headerSize : Int))
      (appendAt block 0 (.uint (eventTimestamp mem))) [(0, headerSize)] with
  | fail b r => rw [hd] at h; simp at h
  | next off s b r =>
    obtain ⟨ho, hs, hnn⟩ := decodeFields_next_eq mem (eventMask mem) ords headerSize
      (size - (headerSize : Int)) _ _ hd
    have h0 : (0 : Int) ≤ s := hnn (by omega)
    subst ho; subst hs
    simp only [] at h0 ⊢
    constructor <;> (push_cast at h0 ⊢; omega)

/-! ## Claim theorem about the block schema -/

/-- C6: `make_block` returns a block with exactly eleven columns, in schema
order, with the claimed names and types, all initially empty. -/
theorem c6_make_block_schema :
    make_block =
      [⟨"timestamp", .uint64, []⟩,
       ⟨"address", .ipv6, []⟩,
       ⟨"method", .uint8, []⟩,
       ⟨"version", .uint8, []⟩,
       ⟨"status", .uint16, []⟩,
       ⟨"response_content_length", .uint32, []⟩,
       ⟨"response_time", .uint32, []⟩,
       ⟨"vhost", .string, []⟩,
       ⟨"uri", .string, []⟩,
       ⟨"referer", .string, []⟩,
       ⟨"user_agent", .string, []⟩] := rfl

/-! ## Claim theorems about the decoder -/

/-- C1: refuted on the code.  On the 11-byte span holding only a header
with an empty fields mask, `read_access_log_event` appends the timestamp to
column 0, then fails the address bounds check (`16 > 0`) and returns `-1`
WITHOUT truncating: the timestamp column has grown by one while every other
column still has its pre-event length, so the columns are left unequal. -/
theorem c1_failed_decode_leaves_partial_row :
    (read_access_log_event (memOf headerOnlyBytes) 11 make_block).ok = false ∧
    colLengths make_block = [0, 0, 0, 0, 0, 0, 0, 0, 0, 0, 0] ∧
    colLengths (read_access_log_event (memOf headerOnlyBytes) 11 make_block).block
      = [1, 0, 0, 0, 0, 0, 0, 0, 0, 0, 0] := ⟨rfl, rfl, rfl⟩

/-- C2: refuted on the code.  On the spec's own minimal-ACCESS span the
decoder fails instead of appending the expected row: after consuming the
16 address bytes nothing remains, and the `INT_CASE` macro for the absent
`method` field runs its `len > size` bounds check (`1 > 0`) BEFORE testing
the presence bit, so `read_access_log_event` returns `-1` having appended
only the timestamp and address. -/
theorem c2_minimal_access_not_decoded :
    (read_access_log_event (memOf minimalAccessBytes) 27 make_block).ok = false ∧
    colLengths (read_access_log_event (memOf minimalAccessBytes) 27 make_block).block
      = [1, 1, 0, 0, 0, 0, 0, 0, 0, 0, 0] := ⟨rfl, rfl⟩

/-- C3: refuted on the code.  On a span whose present vhost field starts at
the last remaining byte, the decoder reads the 2-byte length prefix at
offset 39 — touching offset 40, one past the 40-byte span — BEFORE running
the `len + 2 > size` bounds check, and only then returns failure.  The read
trace therefore contains an access that leaves the span. -/
theorem c3_length_prefix_read_before_bounds_check :
    truncatedVhostBytes.length = 40 ∧
    (read_access_log_event (memOf truncatedVhostBytes) 40 make_block).ok = false ∧
    ((read_access_log_event (memOf truncatedVhostBytes) 40 make_block).reads).contains
      (39, 2) = true ∧
    readsWithin (read_access_log_event (memOf truncatedVhostBytes) 40 make_block).reads 40
      = false := ⟨rfl, rfl, rfl, rfl⟩

/-- C10: for every ACCESS event it decodes successfully,
`read_access_log_event` returns exactly the header size plus the sum of the
encoded lengths of the mask-present fields (fixed 16/1/1/2/4/4 bytes for
ordinals 0..5, 2-byte prefix plus prefix value for ordinals 6..9), with
mask-absent fields contributing zero bytes. -/
theorem c10_consumed_counts_present_fields_only
    (mem : Nat → Nat) (size : Int) (block : List Column)
    (h : (read_access_log_event mem size block).ok = true) :
    (read_access_log_event mem size block).consumed
      = headerSize + presentLen mem (eventMask mem) ords headerSize :=
  read_ok_consumed mem size block h

/-- Witness for C10: on a concrete full-mask 50-byte ACCESS frame the
decoder succeeds and its consumed count equals the header size plus the
encoded length of the present fields. -/
theorem c10_consumed_counts_present_fields_only_witness :
    (read_access_log_event (memOf fullAccessBytes) 50 make_block).ok = true ∧
    (read_access_log_event (memOf fullAccessBytes) 50 make_block).consumed
      = headerSize + presentLen (memOf fullAccessBytes)
          (eventMask (memOf fullAccessBytes)) ords headerSize :=
  ⟨rfl,
   c10_consumed_counts_present_fields_only (memOf fullAccessBytes) 50 make_block
     rfl⟩

/-! ## Claim theorems about the span callback -/

/-- C4: on every span whose first frame has type DROPPED, the callback
requires 8 bytes after the header: with them present it emits exactly the
little-endian 64-bit value of those 8 bytes and terminates span processing
— the block is untouched, nothing further is decoded, no commit happens;
with fewer than 8 bytes it reports an error and emits nothing. -/
theorem c4_dropped_frame (mem : Nat → Nat) (size : Int) (block : List Column)
    (fuel : Nat) (htype : eventType mem 0 = TFW_MMAP_LOG_TYPE_DROPPED) :
    ((19 : Int) ≤ size →
      callback mem size block (fuel + 1)
        = ⟨[le64 (mem 11) (mem 12) (mem 13) (mem 14) (mem 15) (mem 16) (mem 17) (mem 18)],
           false, block, size - (headerSize : Int) - 8, some .dropped⟩) ∧
    ((headerSize : Int) ≤ size → size < 19 →
      callback mem size block (fuel + 1)
        = ⟨[], false, block, size - (headerSize : Int), some .shortDropped⟩) := by
  have h2 : mem 0 = 2 := htype
  have hcast : ((headerSize : Nat) : Int) = 11 := by norm_num [headerSize]
  constructor
  · intro hsz
    have hlt : ¬ size < ((headerSize : Nat) : Int) := by omega
    have hd8 : ¬ (8 : Int) > size - ((headerSize : Nat) : Int) := by omega
    simp [callback, callbackLoop, eventType, h2, TFW_MMAP_LOG_TYPE_ACCESS,
      TFW_MMAP_LOG_TYPE_DROPPED, hlt, hd8]
  · intro hsz hlt19
    have hlt : ¬ size < ((headerSize : Nat) : Int) := by omega
    have hd8 : (8 : Int) > size - ((headerSize : Nat) : Int) := by omega
    simp [callback, callbackLoop, eventType, h2, TFW_MMAP_LOG_TYPE_ACCESS,
      TFW_MMAP_LOG_TYPE_DROPPED, hlt, hd8]

/-- Witness for C4: on the spec's DROPPED scenario the callback emits the
count 42, leaves the block untouched and terminates the span. -/
theorem c4_dropped_frame_witness :
    callback (memOf droppedBytes) 19 make_block 1
      = ⟨[42], false, make_block, 0, some .dropped⟩ := by
  have h := (c4_dropped_frame (memOf droppedBytes) 19 make_block 0 rfl).1
    (by norm_num)
  rw [h]
  rfl

/-- C5 (amended): the span callback reaches `clickhouse->commit()` exactly
when successful ACCESS decodes drain the span to zero remaining bytes — and
then the whole span was consumed; every early stop (unknown type, DROPPED,
failed decode, trailing partial frame) returns without committing. -/
theorem c5_commit_only_when_span_drained (mem : Nat → Nat) (fuel off : Nat)
    (size : Int) (block : List Column) (em : List Nat) :
    ((callbackLoop mem fuel off size block em).committed = true ↔
      (callbackLoop mem fuel off size block em).stop = none) ∧
    ((callbackLoop mem fuel off size block em).committed = true →
      (callbackLoop mem fuel off size block em).remaining = 0) := by
  induction fuel generalizing off size block em with
  | zero => simp [callbackLoop]
  | succ n ih =>
    simp only [callbackLoop]
    split_ifs with h1 h2 hok hrem hdrop hshort
    · simp
    · exact ih _ _ _ _
    · refine ⟨by simp, fun _ => ?_⟩
      obtain ⟨hge, hle⟩ := read_ok_consumed_le (fun j => mem (off + j)) size block
        (not_lt.mp h1) hok
      simp only []
      omega
    · simp
    · simp
    · simp
    · simp

/-- C5 counterexample: on a span holding one decodable ACCESS frame
followed by an unknown-type frame, the callback stops at the unknown frame
with one row appended to every column, yet returns WITHOUT committing —
the code's `default:` case returns before `clickhouse->commit()`, refuting
the claim that the rows appended up to the stopping point are committed. -/
theorem c5_unknown_type_stop_does_not_commit :
    (callback (memOf accessThenUnknownBytes) 61 make_block 2).stop
      = some .unknown ∧
    colLengths (callback (memOf accessThenUnknownBytes) 61 make_block 2).block
      = [1, 1, 1, 1, 1, 1, 1, 1, 1, 1, 1] ∧
    (callback (memOf accessThenUnknownBytes) 61 make_block 2).committed
      = false := ⟨rfl, rfl, rfl⟩

/-! ## Claim theorems about main and the supervisor loop -/

/-- C7: invoked with an argument count other than 2, `main` prints the
usage text and returns `-EINVAL` without attempting to open the device and
without spawning any worker. -/
theorem c7_usage_einval (argc cpu_cnt : Nat) (env : Env) (fuel : Nat)
    (h : argc ≠ 2) :
    mainModel argc cpu_cnt env fuel = ([.printUsage], .exited (-(EINVAL : Int))) ∧
    (∀ k, Action.openAttempt k ∉ (mainModel argc cpu_cnt env fuel).1) ∧
    (∀ c, Action.spawnWorker c ∉ (mainModel argc cpu_cnt env fuel).1) := by
  refine ⟨by simp [mainModel, h], ?_, ?_⟩ <;>
    · intro x
      simp [mainModel, h]

/-- Witness for C7: `main` invoked with one surplus argument (`argc = 3`)
prints usage and exits with `-EINVAL`, opening nothing and spawning
nothing. -/
theorem c7_usage_einval_witness :
    mainModel 3 4 constEnv 5 = ([.printUsage], .exited (-(EINVAL : Int))) ∧
    (∀ k, Action.openAttempt k ∉ (mainModel 3 4 constEnv 5).1) ∧
    (∀ c, Action.spawnWorker c ∉ (mainModel 3 4 constEnv 5).1) :=
  c7_usage_einval 3 4 constEnv 5 (by decide)

/-- Running the device-open loop from attempt `k` when the next `n`
attempts fail with ENOENT: each such failure is followed by a one-second
sleep and a retry, and the `n`-th attempt decides the outcome — a non-ENOENT
errno is fatal immediately (its attempt is the last in the trace), while a
success returns its descriptor. -/
theorem openLoop_run (env : Env) :
    ∀ (n k fuel : Nat), n < fuel →
    (∀ j, j < n → env.openResult (k + j) = .err ENOENT) →
    (∀ e, env.openResult (k + n) = .err e → e ≠ ENOENT →
      openLoop env fuel k = (retryBlock k n ++ [.openAttempt (k + n)], .fatal e)) ∧
    (∀ fd, env.openResult (k + n) = .ok fd →
      openLoop env fuel k = (retryBlock k n ++ [.openAttempt (k + n)], .gotFd fd (k + n + 1))) := by
  intro n
  induction n with
  | zero =>
    intro k fuel hf hpre
    obtain ⟨f, rfl⟩ : ∃ f, fuel = f + 1 := ⟨fuel - 1, by omega⟩
    constructor
    · intro e he hne
      simp only [openLoop]
      rw [show env.openResult k = .err e from he]
      simp [hne, retryBlock]
    · intro fd hfd
      simp only [openLoop]
      rw [show env.openResult k = .ok fd from hfd]
      simp [retryBlock]
  | succ n ih =>
    intro k fuel hf hpre
    obtain ⟨f, rfl⟩ : ∃ f, fuel = f + 1 := ⟨fuel - 1, by omega⟩
    have h0 : env.openResult k = .err ENOENT := by
      have := hpre 0 (by omega)
      simpa using this
    have hpre1 : ∀ j, j < n → env.openResult (k + 1 + j) = .err ENOENT := by
      intro j hj
      have := hpre (j + 1) (by omega)
      simpa [Nat.add_assoc, Nat.add_comm 1 j] using this
    obtain ⟨ihfatal, ihok⟩ := ih (k + 1) f (by omega) hpre1
    constructor
    · intro e he hne
      have he1 : env.openResult (k + 1 + n) = .err e := by
        simpa [Nat.add_assoc, Nat.add_comm 1 n] using he
      simp only [openLoop]
      rw [h0]
      simp only [ENOENT, if_pos rfl]
      rw [ihfatal e he1 hne]
      simp [retryBlock]
      omega
    · intro fd hfd
      have hfd1 : env.openResult (k + 1 + n) = .ok fd := by
        simpa [Nat.add_assoc, Nat.add_comm 1 n] using hfd
      simp only [openLoop]
      rw [h0]
      simp only [ENOENT, if_pos rfl]
      rw [ihok fd hfd1]
      simp [retryBlock]
      omega

/-- C8: in the supervisor's device-open loop, when the first `n` open
attempts fail with ENOENT, each of them is followed by a one-second sleep
and a retry; if attempt `n` then fails with any other errno the loop is
fatal at once (no attempt `n + 1` occurs), and if attempt `n` succeeds the
loop returns its descriptor after exactly those `n` sleep-and-retry
rounds. -/
theorem c8_enoent_retries_other_errno_fatal (env : Env) (n fuel : Nat)
    (hf : n < fuel) (hpre : ∀ j, j < n → env.openResult j = .err ENOENT) :
    (∀ e, env.openResult n = .err e → e ≠ ENOENT →
      openLoop env fuel 0 = (retryBlock 0 n ++ [.openAttempt n], .fatal e)) ∧
    (∀ fd, env.openResult n = .ok fd →
      openLoop env fuel 0 = (retryBlock 0 n ++ [.openAttempt n], .gotFd fd (n + 1))) := by
  have h := openLoop_run env n 0 fuel hf (by simpa using hpre)
  simpa using h

/-- Witness for C8: one ENOENT round (open, sleep 1 s, retry) followed by
an EACCES failure that is fatal without a further attempt. -/
theorem c8_enoent_retries_other_errno_fatal_witness :
    openLoop enoentThenEaccesEnv 3 0
      = ([.openAttempt 0, .sleepSec 1, .openAttempt 1], .fatal 13) := by
  have h := (c8_enoent_retries_other_errno_fatal enoentThenEaccesEnv 1 3
    (by omega) (fun j hj => by obtain rfl : j = 0 := Nat.lt_one_iff.mp hj; rfl)).1
    13 rfl (by decide)
  rw [h]
  rfl

end Tfw
